import Mathlib

/-! The localcache hash table (`modules/localcache/hash.c`).

A shallow embedding of the bucket-chain engine of the localcache module:
`lcache_htable_init`, `lcache_htable_destroy`, `lcache_htable_insert`,
`lcache_htable_remove_safe`, `lcache_htable_remove` and `lcache_htable_fetch`.

Modelling conventions
* a `char` is a natural number (a byte); a C string argument is the list of
  bytes found at the pointer, the string ending at the first `0` byte or at the
  end of the list, whichever comes first;
* an opensips `str` (pointer plus length) is the list of the `len` bytes it
  denotes, so `len` is the length of the list;
* a singly linked chain is the list of its entries, head first;
* `unsigned int` arithmetic is arithmetic modulo `UINT_MOD`;
* the outcome of every allocation (`shm_malloc`, `pkg_malloc`), the value
  returned by `get_ticks()` and the hash function `core_hash` are inputs;
* `it->next` read right after `shm_free(it)` yields the value the field had
  before the free.
-/

namespace Localcache

/-! ## Data model -/

/-- Range of an `unsigned int`: ticks and expiry stamps live in `[0, UINT_MOD)`. -/
def UINT_MOD : Nat := 4294967296

/-- Entry of a chain (`lcache_entry_t`): `attr` and `value` are counted byte
strings, `expires` is an absolute tick, `0` meaning that no expiry is set.  The
`next` link is the tail of the list the entry sits in. -/
structure lcache_entry where
  attr : List Nat
  value : List Nat
  expires : Nat
deriving DecidableEq, Repr

/-- Operations on the bucket locks, recorded in call order. -/
inductive lock_event where
  | lock_init (i : Nat)
  | lock_destroy (i : Nat)
  | lock_get (i : Nat)
  | lock_release (i : Nat)
deriving DecidableEq, Repr

/-- An initialised table: `cache_htable_size` buckets, `cache_htable i` being the
chain `cache_htable[i].entries`. -/
structure lcache_state where
  cache_htable_size : Nat
  cache_htable : Nat → List lcache_entry

/-- Outcome of one call: the returned value, the table afterwards and the lock
operations the call performed. -/
structure lcache_call (ρ : Type) where
  ret : ρ
  st : lcache_state
  trace : List lock_event

/-! ## C string helpers -/

/-- The bytes of a C string before its terminator: `{attr, strlen(attr)}`. -/
def mk_str : List Nat → List Nat
  | [] => []
  | c :: cs => if c = 0 then [] else c :: mk_str cs

/-- Number of bytes before the terminator (`strlen`). -/
def strlen (p : List Nat) : Nat := (mk_str p).length

/-- Comparison `strncmp(s1, s2, n)`: at most `n` bytes are compared, the
comparison stops after a `0` byte; a byte past the end of a list reads as `0`. -/
def strncmp : List Nat → List Nat → Nat → Int
  | _, _, 0 => 0
  | s1, s2, n + 1 =>
    if s1.headD 0 ≠ s2.headD 0 then (s1.headD 0 : Int) - (s2.headD 0 : Int)
    else if s1.headD 0 = 0 then 0
    else strncmp s1.tail s2.tail n

/-- The test of the scan loops:
`it->attr.len == attr.len && strncmp(it->attr.s, attr.s, attr.len) == 0`. -/
def attr_match (it : lcache_entry) (attr : List Nat) : Bool :=
  it.attr.length == attr.length && strncmp it.attr attr attr.length == 0

/-! ## Operations -/

/-- Store `c` as the chain of bucket `i`: `cache_htable[i].entries = c`. -/
def set_entries (st : lcache_state) (i : Nat) (c : List lcache_entry) : lcache_state :=
  { st with cache_htable := fun j => if j = i then c else st.cache_htable j }

/-- The `while(it)` loop of `lcache_htable_remove_safe`, as the chain reachable
from `*it_p` afterwards.  `has_me` tells whether a predecessor `me` exists: with
one the matching entry is bypassed (`me->next = it->next`), without one the
caller's pointer is cleared (`*it_p = NULL`). -/
def remove_safe_loop (attr : List Nat) : Bool → List lcache_entry → List lcache_entry
  | _, [] => []
  | has_me, it :: next =>
    if attr_match it attr then
      if has_me then next else []
    else it :: remove_safe_loop attr true next

/-- Function `lcache_htable_remove_safe(attr, it_p)`: the new value of `*it_p`. -/
def lcache_htable_remove_safe (attr : List Nat) (it : List lcache_entry) : List lcache_entry :=
  remove_safe_loop attr false it

/-- Function `lcache_htable_insert(attr, value, expires)`.  `shm_ok` is the outcome
of `shm_malloc`, `ticks` the value of `get_ticks()`. -/
def lcache_htable_insert (core_hash : List Nat → Nat → Nat) (shm_ok : Bool) (ticks : Nat)
    (attr value : List Nat) (expires : Nat) (st : lcache_state) : lcache_call Int :=
  let attr_str := mk_str attr
  let value_str := mk_str value
  if shm_ok = false then
    { ret := -1, st := st, trace := [] }
  else
    let me : lcache_entry :=
      { attr := attr_str
        value := value_str
        expires := if expires ≠ 0 then (ticks + expires) % UINT_MOD else 0 }
    let hash_code := core_hash attr_str st.cache_htable_size
    let it := st.cache_htable hash_code
    let it := lcache_htable_remove_safe attr_str it
    { ret := 1
      st := set_entries st hash_code (me :: it)
      trace := [lock_event.lock_get hash_code, lock_event.lock_release hash_code] }

/-- Function `lcache_htable_remove(attr)`. -/
def lcache_htable_remove (core_hash : List Nat → Nat → Nat) (attr : List Nat)
    (st : lcache_state) : lcache_call Unit :=
  let attr_str := mk_str attr
  let hash_code := core_hash attr_str st.cache_htable_size
  { ret := ()
    st := set_entries st hash_code (lcache_htable_remove_safe attr_str (st.cache_htable hash_code))
    trace := [lock_event.lock_get hash_code, lock_event.lock_release hash_code] }

/-- The `while(it)` loop of `lcache_htable_fetch`: the return value, the buffer
stored in `*res` (`none` when `*res` is not written) and the chain of the bucket
afterwards.  `has_aux` tells whether a predecessor `it_aux` exists. -/
def fetch_loop (attr : List Nat) (ticks : Nat) (pkg_ok : Bool) :
    Bool → List lcache_entry → (Int × Option (List Nat)) × List lcache_entry
  | _, [] => ((-1, none), [])
  | has_aux, it :: next =>
    if attr_match it attr then
      if it.expires ≠ 0 ∧ it.expires < ticks then
        ((-1, none), if has_aux then next else [])
      else if pkg_ok = false then
        ((-1, none), it :: next)
      else
        ((1, some (it.value ++ [0])), it :: next)
    else
      ((fetch_loop attr ticks pkg_ok true next).1,
        it :: (fetch_loop attr ticks pkg_ok true next).2)

/-- The lock operations of `lcache_htable_fetch` from the `while(it)` loop to the
`return`, one case for each return path: the expired entry, the failed copy
allocation and the copied value inside the loop, the end of the chain after it. -/
def fetch_loop_trace (attr : List Nat) (ticks : Nat) (pkg_ok : Bool) (hash_code : Nat) :
    List lcache_entry → List lock_event
  | [] => [lock_event.lock_release hash_code]
  | it :: next =>
    if attr_match it attr then
      if it.expires ≠ 0 ∧ it.expires < ticks then
        [lock_event.lock_release hash_code]
      else if pkg_ok = false then
        [lock_event.lock_release hash_code]
      else
        [lock_event.lock_release hash_code]
    else fetch_loop_trace attr ticks pkg_ok hash_code next

/-- Function `lcache_htable_fetch(attr, res)`.  `pkg_ok` is the outcome of
`pkg_malloc`, `ticks` the value of `get_ticks()`. -/
def lcache_htable_fetch (core_hash : List Nat → Nat → Nat) (pkg_ok : Bool) (ticks : Nat)
    (attr : List Nat) (st : lcache_state) : lcache_call (Int × Option (List Nat)) :=
  let attr_str := mk_str attr
  let hash_code := core_hash attr_str st.cache_htable_size
  let r := fetch_loop attr_str ticks pkg_ok false (st.cache_htable hash_code)
  { ret := r.1
    st := set_entries st hash_code r.2
    trace := lock_event.lock_get hash_code
      :: fetch_loop_trace attr_str ticks pkg_ok hash_code (st.cache_htable hash_code) }

/-- The loop `for(i = 0; i < size; i++) if(lock_init(...) == 0) goto error;` of
`lcache_htable_init`, with `n` iterations left at index `i`: the index at which
`lock_init` failed, if it did, and the `lock_init` calls made. -/
def lock_init_loop (lock_init_ok : Nat → Bool) : Nat → Nat → Option Nat × List lock_event
  | 0, _ => (none, [])
  | n + 1, i =>
    if lock_init_ok i = false then (some i, [lock_event.lock_init i])
    else
      ((lock_init_loop lock_init_ok n (i + 1)).1,
        lock_event.lock_init i :: (lock_init_loop lock_init_ok n (i + 1)).2)

/-- Outcome of `lcache_htable_init`: the returned value, the table handle
`cache_htable` afterwards (`none` for `NULL`), the lock operations performed and
whether the bucket array was passed to `shm_free`. -/
structure lcache_init_result where
  ret : Int
  handle : Option lcache_state
  trace : List lock_event
  table_freed : Bool

/-- Function `lcache_htable_init(size)`.  `shm_ok` is the outcome of `shm_malloc`,
`lock_init_ok i` that of `lock_init` on bucket `i`.  When `shm_malloc` fails there
is no array to free; on the `error:` path the locks initialised so far are
destroyed, the array is freed and the handle cleared.  The module calls it with
`size = cache_htable_size`. -/
def lcache_htable_init (shm_ok : Bool) (lock_init_ok : Nat → Bool) (size : Nat) :
    lcache_init_result :=
  if shm_ok = false then { ret := -1, handle := none, trace := [], table_freed := false }
  else
    match lock_init_loop lock_init_ok size 0 with
    | (none, ev) =>
      { ret := 0
        handle := some { cache_htable_size := size, cache_htable := fun _ => [] }
        trace := ev
        table_freed := false }
    | (some i, ev) =>
      { ret := -1
        handle := none
        trace := ev ++ (List.range i).map lock_event.lock_destroy
        table_freed := true }

/-- Outcome of `lcache_htable_destroy`: the table handle afterwards (`none` for
`NULL`), the lock operations performed, the entries passed to `shm_free` and
whether the bucket array was passed to `shm_free`. -/
structure lcache_destroy_result where
  handle : Option lcache_state
  trace : List lock_event
  freed : List lcache_entry
  table_freed : Bool

/-- The loop `for(i = 0; i < cache_htable_size; i++)` of `lcache_htable_destroy`
with `n` iterations left at index `i`: each iteration calls `lock_destroy` on the
lock of bucket `i` and walks the chain, reading `me1->next` before freeing
`me1`.  The result is the `lock_destroy` calls and the entries freed, in order. -/
def destroy_loop (st : lcache_state) : Nat → Nat → List lock_event × List lcache_entry
  | 0, _ => ([], [])
  | n + 1, i =>
    (lock_event.lock_destroy i :: (destroy_loop st n (i + 1)).1,
      st.cache_htable i ++ (destroy_loop st n (i + 1)).2)

/-- Function `lcache_htable_destroy()`, on the table handle `cache_htable`. -/
def lcache_htable_destroy : Option lcache_state → lcache_destroy_result
  | none => { handle := none, trace := [], freed := [], table_freed := false }
  | some st =>
    { handle := none
      trace := (destroy_loop st st.cache_htable_size 0).1
      freed := (destroy_loop st st.cache_htable_size 0).2
      table_freed := true }

/-! ## Call sequences -/

/-- One call of the operations layer together with the inputs it reads from its
environment (allocation outcome, tick). -/
inductive lcache_op where
  | insert (shm_ok : Bool) (ticks : Nat) (attr value : List Nat) (expires : Nat)
  | remove (attr : List Nat)
  | fetch (pkg_ok : Bool) (ticks : Nat) (attr : List Nat)

/-- The table after one call. -/
def lcache_step (core_hash : List Nat → Nat → Nat) (st : lcache_state) : lcache_op → lcache_state
  | lcache_op.insert shm_ok ticks attr value expires =>
    (lcache_htable_insert core_hash shm_ok ticks attr value expires st).st
  | lcache_op.remove attr => (lcache_htable_remove core_hash attr st).st
  | lcache_op.fetch pkg_ok ticks attr => (lcache_htable_fetch core_hash pkg_ok ticks attr st).st

/-- The table after a sequence of calls, first call first. -/
def lcache_run (core_hash : List Nat → Nat → Nat) (st : lcache_state) (ops : List lcache_op) :
    lcache_state :=
  ops.foldl (lcache_step core_hash) st

/-- The table a successful `lcache_htable_init(size)` leaves: `size` empty chains. -/
def fresh_table (size : Nat) : lcache_state :=
  { cache_htable_size := size, cache_htable := fun _ => [] }

/-- Table states reachable from a freshly initialised table by insert, remove and
fetch calls, whatever the allocation outcomes and ticks of the calls. -/
def Reachable (core_hash : List Nat → Nat → Nat) (st : lcache_state) : Prop :=
  ∃ size ops, st = lcache_run core_hash (fresh_table size) ops

/-- No two entries of the chain carry the same key. -/
def chain_nodup (c : List lcache_entry) : Prop :=
  (c.map (fun e => e.attr)).Nodup

/-- Number of entries of the chain whose key is the byte string `k`. -/
def key_count (k : List Nat) (c : List lcache_entry) : Nat :=
  c.countP (fun e => decide (e.attr = k))

/-- The first entry of the chain whose key is the byte string `k`, if there is
one. -/
def first_with_key (k : List Nat) (c : List lcache_entry) : Option lcache_entry :=
  c.find? (fun e => decide (e.attr = k))

/-! ## Example inputs -/

/-- A hash function sending every key to bucket 0. -/
def hash_zero : List Nat → Nat → Nat := fun _ _ => 0

/-- A hash function sending a key to its length modulo the table size. -/
def hash_len : List Nat → Nat → Nat := fun k size => k.length % size

/-- The C string "alice". -/
def alice : List Nat := [97, 108, 105, 99, 101]

/-- The C string "bob". -/
def bob : List Nat := [98, 111, 98]

/-- The C string "123". -/
def v123 : List Nat := [49, 50, 51]

/-- The C string "456". -/
def v456 : List Nat := [52, 53, 54]

/-- The scenario of the specification run on the operations above: on a fresh
8-bucket table, insert("alice","123",0) and insert("bob","456",5) at tick `T`,
fetch("alice") at tick `T`, then fetch("bob") and fetch("alice") once the
`unsigned int` tick has advanced by 6.  The three fetch results are returned. -/
def scenario (core_hash : List Nat → Nat → Nat) (pkg_ok : Bool) (T : Nat) :
    (Int × Option (List Nat)) × (Int × Option (List Nat)) × (Int × Option (List Nat)) :=
  let s1 := (lcache_htable_insert core_hash true T alice v123 0 (fresh_table 8)).st
  let s2 := (lcache_htable_insert core_hash true T bob v456 5 s1).st
  let f1 := lcache_htable_fetch core_hash pkg_ok T alice s2
  let f2 := lcache_htable_fetch core_hash pkg_ok ((T + 6) % UINT_MOD) bob f1.st
  let f3 := lcache_htable_fetch core_hash pkg_ok ((T + 6) % UINT_MOD) alice f2.st
  (f1.ret, f2.ret, f3.ret)

/-- A table whose bucket 0 holds key "b" at the head and key "a" behind it:
insert("a","1",0) then insert("b","2",0) on a fresh table, all keys hashing to 0. -/
def table_b_a : lcache_state :=
  lcache_run hash_zero (fresh_table 8)
    [lcache_op.insert true 0 [97] [49] 0, lcache_op.insert true 0 [98] [50] 0]

/-- A table whose bucket 0 holds key "a" with expiry tick 5 at the head and key
"b" behind it: insert("b","2",0) then insert("a","1",5) at tick 0. -/
def table_a5_b : lcache_state :=
  lcache_run hash_zero (fresh_table 8)
    [lcache_op.insert true 0 [98] [50] 0, lcache_op.insert true 0 [97] [49] 5]

/-- A table whose bucket 0 holds key "ab" at the head and key "abc" behind it:
insert("abc","1",0) then insert("ab","2",0) on a fresh table, all keys hashing
to 0. -/
def table_ab_abc : lcache_state :=
  lcache_run hash_zero (fresh_table 8)
    [lcache_op.insert true 0 [97, 98, 99] [49] 0, lcache_op.insert true 0 [97, 98] [50] 0]

end Localcache

namespace Localcache

/-! ## Key comparison -/

theorem mk_str_ne_zero (p : List Nat) : ∀ b ∈ mk_str p, b ≠ 0 := by
  induction p with
  | nil => simp [mk_str]
  | cons c cs ih =>
    intro b hb
    by_cases hc : c = 0
    · simp [mk_str, hc] at hb
    · simp only [mk_str, hc, if_false, List.mem_cons] at hb
      rcases hb with rfl | hb
      · exact hc
      · exact ih b hb

theorem strncmp_eq_zero_iff (k : List Nat) (hk : ∀ b ∈ k, b ≠ 0) :
    ∀ a : List Nat, a.length = k.length → (strncmp a k k.length = 0 ↔ a = k) := by
  induction k with
  | nil =>
    intro a ha
    have : a = [] := List.length_eq_zero.mp ha
    subst this
    simp [strncmp]
  | cons b ks ih =>
    intro a ha
    cases a with
    | nil => simp at ha
    | cons x as =>
      have hb : b ≠ 0 := hk b (List.mem_cons_self _ _)
      have hks : ∀ c ∈ ks, c ≠ 0 := fun c hc => hk c (List.mem_cons_of_mem _ hc)
      have hlen : as.length = ks.length := by simpa using ha
      by_cases hxb : x = b
      · subst hxb
        simp only [List.length_cons, strncmp, List.headD_cons, ne_eq, not_true_eq_false,
          if_false, hb, List.tail_cons]
        rw [ih hks as hlen]
        simp
      · have hne : (x : Int) - (b : Int) ≠ 0 := by
          intro h
          apply hxb
          omega
        simp [strncmp, hxb, hne]

/-- The scan test against a requested key is equality of byte strings. -/
theorem attr_match_iff (it : lcache_entry) (p : List Nat) :
    attr_match it (mk_str p) = true ↔ it.attr = mk_str p := by
  unfold attr_match
  constructor
  · intro h
    simp only [Bool.and_eq_true, beq_iff_eq] at h
    exact (strncmp_eq_zero_iff _ (mk_str_ne_zero p) _ h.1).mp h.2
  · intro h
    simp only [Bool.and_eq_true, beq_iff_eq]
    exact ⟨by rw [h], (strncmp_eq_zero_iff _ (mk_str_ne_zero p) _ (by rw [h])).mpr h⟩

/-! ## Chains -/

theorem remove_safe_loop_sublist (k : List Nat) :
    ∀ (b : Bool) (c : List lcache_entry), (remove_safe_loop k b c).Sublist c := by
  intro b c
  induction c generalizing b with
  | nil => simp [remove_safe_loop]
  | cons it next ih =>
    unfold remove_safe_loop
    split
    · split
      · exact List.sublist_cons_self it next
      · exact List.nil_sublist _
    · exact (ih true).cons₂ it

theorem remove_safe_loop_absent (p : List Nat) :
    ∀ (b : Bool) (c : List lcache_entry), (∀ e ∈ c, e.attr ≠ mk_str p) →
      remove_safe_loop (mk_str p) b c = c := by
  intro b c
  induction c generalizing b with
  | nil => simp [remove_safe_loop]
  | cons it next ih =>
    intro h
    have hit : ¬ attr_match it (mk_str p) = true := by
      rw [attr_match_iff]
      exact h it (List.mem_cons_self _ _)
    have hnext := ih true (fun e he => h e (List.mem_cons_of_mem _ he))
    simp [remove_safe_loop, hit, hnext]

theorem chain_nodup_sublist {c d : List lcache_entry} (h : d.Sublist c) (hc : chain_nodup c) :
    chain_nodup d :=
  List.Nodup.sublist (h.map _) hc

theorem chain_nodup_cons {e : lcache_entry} {c : List lcache_entry} :
    chain_nodup (e :: c) ↔ (∀ x ∈ c, x.attr ≠ e.attr) ∧ chain_nodup c := by
  unfold chain_nodup
  simp only [List.map_cons, List.nodup_cons, List.mem_map, not_exists, not_and]

/-- In a chain without duplicate keys, `lcache_htable_remove_safe` leaves no entry
with the requested key. -/
theorem remove_safe_loop_no_key (p : List Nat) :
    ∀ (b : Bool) (c : List lcache_entry), chain_nodup c →
      ∀ e ∈ remove_safe_loop (mk_str p) b c, e.attr ≠ mk_str p := by
  intro b c
  induction c generalizing b with
  | nil => simp [remove_safe_loop]
  | cons it next ih =>
    intro hc e he
    rw [chain_nodup_cons] at hc
    by_cases hit : attr_match it (mk_str p) = true
    · have hk := (attr_match_iff it p).mp hit
      simp only [remove_safe_loop, hit, if_true] at he
      cases b with
      | true =>
        simp only [if_true] at he
        rw [← hk]
        exact hc.1 e he
      | false => simp at he
    · simp only [remove_safe_loop, hit, Bool.false_eq_true, if_false, List.mem_cons] at he
      rcases he with rfl | he
      · rw [attr_match_iff] at hit
        exact hit
      · exact ih true hc.2 e he

theorem fetch_loop_sublist (k : List Nat) (ticks : Nat) (pkg_ok : Bool) :
    ∀ (b : Bool) (c : List lcache_entry), (fetch_loop k ticks pkg_ok b c).2.Sublist c := by
  intro b c
  induction c generalizing b with
  | nil => simp [fetch_loop]
  | cons it next ih =>
    unfold fetch_loop
    split
    · split
      · split
        · exact List.sublist_cons_self it next
        · exact List.nil_sublist _
      · split <;> exact List.Sublist.refl _
    · exact (ih true).cons₂ it

theorem fetch_loop_absent (p : List Nat) (ticks : Nat) (pkg_ok : Bool) :
    ∀ (b : Bool) (c : List lcache_entry), (∀ e ∈ c, e.attr ≠ mk_str p) →
      fetch_loop (mk_str p) ticks pkg_ok b c = ((-1, none), c) := by
  intro b c
  induction c generalizing b with
  | nil => simp [fetch_loop]
  | cons it next ih =>
    intro h
    have hit : ¬ attr_match it (mk_str p) = true := by
      rw [attr_match_iff]
      exact h it (List.mem_cons_self _ _)
    have hnext := ih true (fun e he => h e (List.mem_cons_of_mem _ he))
    simp [fetch_loop, hit, hnext]

/-! ## Table lemmas -/

@[simp] theorem set_entries_same (st : lcache_state) (i : Nat) (c : List lcache_entry) :
    (set_entries st i c).cache_htable i = c := by
  simp [set_entries]

@[simp] theorem set_entries_size (st : lcache_state) (i : Nat) (c : List lcache_entry) :
    (set_entries st i c).cache_htable_size = st.cache_htable_size := rfl

theorem set_entries_other (st : lcache_state) (i j : Nat) (c : List lcache_entry) (h : j ≠ i) :
    (set_entries st i c).cache_htable j = st.cache_htable j := by
  simp [set_entries, h]

/-! ## The uniqueness invariant -/

theorem set_entries_nodup (st : lcache_state) (i : Nat) (c : List lcache_entry)
    (hst : ∀ j, chain_nodup (st.cache_htable j)) (hc : chain_nodup c) :
    ∀ j, chain_nodup ((set_entries st i c).cache_htable j) := by
  intro j
  by_cases h : j = i
  · subst h
    simpa using hc
  · rw [set_entries_other st i j c h]
    exact hst j

theorem insert_nodup (core_hash : List Nat → Nat → Nat) (shm_ok : Bool) (ticks : Nat)
    (attr value : List Nat) (expires : Nat) (st : lcache_state)
    (hst : ∀ j, chain_nodup (st.cache_htable j)) :
    ∀ j, chain_nodup
      ((lcache_htable_insert core_hash shm_ok ticks attr value expires st).st.cache_htable j) := by
  cases shm_ok with
  | false => simpa [lcache_htable_insert] using hst
  | true =>
    simp only [lcache_htable_insert, Bool.true_eq_false, if_false]
    apply set_entries_nodup st _ _ hst
    rw [chain_nodup_cons]
    refine ⟨?_, chain_nodup_sublist (remove_safe_loop_sublist _ _ _) (hst _)⟩
    intro x hx
    exact remove_safe_loop_no_key attr false _ (hst _) x hx

theorem remove_nodup (core_hash : List Nat → Nat → Nat) (attr : List Nat) (st : lcache_state)
    (hst : ∀ j, chain_nodup (st.cache_htable j)) :
    ∀ j, chain_nodup ((lcache_htable_remove core_hash attr st).st.cache_htable j) := by
  simp only [lcache_htable_remove]
  exact set_entries_nodup st _ _ hst
    (chain_nodup_sublist (remove_safe_loop_sublist _ _ _) (hst _))

theorem fetch_nodup (core_hash : List Nat → Nat → Nat) (pkg_ok : Bool) (ticks : Nat)
    (attr : List Nat) (st : lcache_state) (hst : ∀ j, chain_nodup (st.cache_htable j)) :
    ∀ j, chain_nodup ((lcache_htable_fetch core_hash pkg_ok ticks attr st).st.cache_htable j) := by
  simp only [lcache_htable_fetch]
  exact set_entries_nodup st _ _ hst
    (chain_nodup_sublist (fetch_loop_sublist _ _ _ _ _) (hst _))

theorem step_nodup (core_hash : List Nat → Nat → Nat) (st : lcache_state) (op : lcache_op)
    (hst : ∀ j, chain_nodup (st.cache_htable j)) :
    ∀ j, chain_nodup ((lcache_step core_hash st op).cache_htable j) := by
  cases op with
  | insert shm_ok ticks attr value expires =>
    exact insert_nodup core_hash shm_ok ticks attr value expires st hst
  | remove attr => exact remove_nodup core_hash attr st hst
  | fetch pkg_ok ticks attr => exact fetch_nodup core_hash pkg_ok ticks attr st hst

theorem run_nodup (core_hash : List Nat → Nat → Nat) (ops : List lcache_op) :
    ∀ st : lcache_state, (∀ j, chain_nodup (st.cache_htable j)) →
      ∀ j, chain_nodup ((lcache_run core_hash st ops).cache_htable j) := by
  induction ops with
  | nil => intro st hst; simpa [lcache_run] using hst
  | cons op ops ih =>
    intro st hst
    have := ih (lcache_step core_hash st op) (step_nodup core_hash st op hst)
    simpa [lcache_run] using this

theorem reachable_nodup (core_hash : List Nat → Nat → Nat) (st : lcache_state)
    (h : Reachable core_hash st) : ∀ j, chain_nodup (st.cache_htable j) := by
  obtain ⟨size, ops, rfl⟩ := h
  apply run_nodup
  intro j
  simp [fresh_table, chain_nodup]

/-! ## Claims -/

/-- Claim C7: in every table state reachable from a freshly initialised table by
insert, remove and fetch calls (at any ticks, so in particular at non-decreasing
ticks, and whatever the allocation outcomes), no bucket chain contains two
entries with the same key. -/
theorem C7_reachable_chains_have_unique_keys (core_hash : List Nat → Nat → Nat)
    (st : lcache_state) (h : Reachable core_hash st) (j : Nat) :
    chain_nodup (st.cache_htable j) :=
  reachable_nodup core_hash st h j

/-- Witness of claim C7: the table after two inserts of one key, an insert of
another key in the same bucket, a fetch and a remove. -/
theorem C7_reachable_chains_have_unique_keys_witness :
    chain_nodup
      ((lcache_run (fun _ _ => 0) (fresh_table 8)
        [lcache_op.insert true 0 [97] [49] 0, lcache_op.insert true 1 [98] [50] 5,
         lcache_op.insert true 2 [97] [51] 0, lcache_op.fetch true 9 [98],
         lcache_op.remove [97]]).cache_htable 0) :=
  C7_reachable_chains_have_unique_keys (fun _ _ => 0) _ ⟨8, _, rfl⟩ 0

/-- Claim C8: in every reachable table state, `lcache_htable_remove(K)` followed
at once by `lcache_htable_fetch(K)` returns -1 and leaves `*res` unwritten,
whatever the tick and the outcome of the copy allocation. -/
theorem C8_remove_then_fetch_not_found (core_hash : List Nat → Nat → Nat)
    (st : lcache_state) (h : Reachable core_hash st) (K : List Nat) (pkg_ok : Bool)
    (ticks : Nat) :
    (lcache_htable_fetch core_hash pkg_ok ticks K
      (lcache_htable_remove core_hash K st).st).ret = (-1, none) := by
  have hnd := reachable_nodup core_hash st h
  simp only [lcache_htable_fetch, lcache_htable_remove, set_entries_size, set_entries_same]
  rw [fetch_loop_absent]
  exact remove_safe_loop_no_key K false _ (hnd _)

/-- Witness of claim C8: key `a` sits behind key `b` in one chain. -/
theorem C8_remove_then_fetch_not_found_witness :
    (lcache_htable_fetch (fun _ _ => 0) true 3 [97]
      (lcache_htable_remove (fun _ _ => 0) [97]
        (lcache_run (fun _ _ => 0) (fresh_table 8)
          [lcache_op.insert true 0 [97] [49] 0,
           lcache_op.insert true 1 [98] [50] 0])).st).ret = (-1, none) :=
  C8_remove_then_fetch_not_found (fun _ _ => 0) _ ⟨8, _, rfl⟩ [97] true 3

/-- Claim C10: after a successful `lcache_htable_insert(K, V, 0)`, a call
`lcache_htable_fetch(K)` at any tick, with no call in between and with a
successful copy allocation, returns 1 and stores a buffer holding the bytes of
`V` followed by the terminator. -/
theorem C10_no_expiry_fetch_returns_value (core_hash : List Nat → Nat → Nat)
    (st : lcache_state) (K V : List Nat) (now t : Nat) :
    (lcache_htable_fetch core_hash true t K
      (lcache_htable_insert core_hash true now K V 0 st).st).ret
      = (1, some (mk_str V ++ [0])) := by
  have hm : attr_match { attr := mk_str K, value := mk_str V, expires := 0 } (mk_str K) = true :=
    (attr_match_iff _ K).mpr rfl
  simp [lcache_htable_fetch, lcache_htable_insert, fetch_loop, hm]

/-- Counterexample to claim C1 as stated: when the copy allocation of the fetch
fails, the fetch after the two inserts returns -1 and writes no result. -/
theorem C1_fetch_fails_without_memory :
    (lcache_htable_fetch hash_zero false 0 [97]
      (lcache_htable_insert hash_zero true 0 [97] [50] 0
        (lcache_htable_insert hash_zero true 0 [97] [49] 7 (fresh_table 8)).st).st).ret
      = (-1, none) := by
  decide

/-- Claim C1, amended: for every table state (reachable or not), after a
successful `lcache_htable_insert(K, V1, ttl1)` followed by a successful
`lcache_htable_insert(K, V2, 0)`, the bucket chain of K holds exactly one entry
with key K, and `lcache_htable_fetch(K)` with a successful copy allocation
returns 1 and stores the bytes of V2 followed by the terminator. -/
theorem C1_insert_twice_fetch_second (core_hash : List Nat → Nat → Nat) (st : lcache_state)
    (K V1 V2 : List Nat) (ttl1 t1 t2 t3 : Nat) :
    key_count (mk_str K)
        ((lcache_htable_insert core_hash true t2 K V2 0
          (lcache_htable_insert core_hash true t1 K V1 ttl1 st).st).st.cache_htable
            (core_hash (mk_str K) st.cache_htable_size)) = 1
      ∧ (lcache_htable_fetch core_hash true t3 K
          (lcache_htable_insert core_hash true t2 K V2 0
            (lcache_htable_insert core_hash true t1 K V1 ttl1 st).st).st).ret
        = (1, some (mk_str V2 ++ [0])) := by
  have hm : ∀ v e, attr_match { attr := mk_str K, value := v, expires := e } (mk_str K) = true :=
    fun v e => (attr_match_iff _ K).mpr rfl
  simp [lcache_htable_fetch, lcache_htable_insert, fetch_loop, lcache_htable_remove_safe,
    remove_safe_loop, hm, key_count]

/-- Claim C2, the code at a failing input: in the reachable table `table_b_a`
(chain "b", "a" in bucket 0) fetch("a") returns "1"; after remove("b"), a call on
another key, the chain of the bucket is empty and fetch("a") returns -1. -/
theorem C2_remove_of_head_loses_other_key :
    Reachable hash_zero table_b_a
      ∧ (lcache_htable_fetch hash_zero true 0 [97] table_b_a).ret = (1, some [49, 0])
      ∧ (lcache_htable_remove hash_zero [98] table_b_a).st.cache_htable 0 = []
      ∧ (lcache_htable_fetch hash_zero true 0 [97]
          (lcache_htable_remove hash_zero [98] table_b_a).st).ret = (-1, none) :=
  ⟨⟨8, _, rfl⟩, by decide, by decide, by decide⟩

/-- Claim C4, the code at a failing input: in `table_a5_b` the expired entry "a"
is the chain head and "b" its successor; fetch("a") at tick 6 returns -1 and
leaves the bucket empty, where the claim requires the chain to be the successor
"b" alone. -/
theorem C4_expired_head_clears_bucket :
    table_a5_b.cache_htable 0
        = [{ attr := [97], value := [49], expires := 5 },
           { attr := [98], value := [50], expires := 0 }]
      ∧ (lcache_htable_fetch hash_zero true 6 [97] table_a5_b).ret = (-1, none)
      ∧ (lcache_htable_fetch hash_zero true 6 [97] table_a5_b).st.cache_htable 0 = []
      ∧ (lcache_htable_fetch hash_zero true 6 [97] table_a5_b).st.cache_htable 0
          ≠ [{ attr := [98], value := [50], expires := 0 }] := by
  decide

/-- Claim C5, the code at a failing input: in `table_b_a` the chain of bucket 0
is "b", "a"; a successful insert("b","3",0) leaves the new entry alone in the
chain, where the claim requires the new entry followed by "a". -/
theorem C5_insert_over_head_clears_rest :
    table_b_a.cache_htable 0
        = [{ attr := [98], value := [50], expires := 0 },
           { attr := [97], value := [49], expires := 0 }]
      ∧ (lcache_htable_insert hash_zero true 0 [98] [51] 0 table_b_a).ret = 1
      ∧ (lcache_htable_insert hash_zero true 0 [98] [51] 0 table_b_a).st.cache_htable 0
          = [{ attr := [98], value := [51], expires := 0 }]
      ∧ (lcache_htable_insert hash_zero true 0 [98] [51] 0 table_b_a).st.cache_htable 0
          ≠ [{ attr := [98], value := [51], expires := 0 },
             { attr := [97], value := [49], expires := 0 }] := by
  decide

/-- Claim C6, the code at a failing input: in `table_b_a` the chain of bucket 0
is "b", "a"; remove("b") leaves the bucket empty, where the claim requires the
chain to be "a" alone. -/
theorem C6_remove_of_head_clears_bucket :
    table_b_a.cache_htable 0
        = [{ attr := [98], value := [50], expires := 0 },
           { attr := [97], value := [49], expires := 0 }]
      ∧ (lcache_htable_remove hash_zero [98] table_b_a).st.cache_htable 0 = []
      ∧ (lcache_htable_remove hash_zero [98] table_b_a).st.cache_htable 0
          ≠ [{ attr := [97], value := [49], expires := 0 }] := by
  decide

/-- Counterexample to claim C9 as stated: an entry inserted at the last tick of
the `unsigned int` range with ttl 1 gets the stamp 0, which means no expiry; two
ticks later the tick source reads 1 and the fetch still returns the value. -/
theorem C9_wrapped_expiry_never_expires :
    (lcache_htable_insert hash_zero true 4294967295 [97] [49] 1
        (fresh_table 8)).st.cache_htable 0
        = [{ attr := [97], value := [49], expires := 0 }]
      ∧ (lcache_htable_fetch hash_zero true 1 [97]
          (lcache_htable_insert hash_zero true 4294967295 [97] [49] 1
            (fresh_table 8)).st).ret = (1, some [49, 0]) := by
  decide

/-- Claim C9, amended: for ttl > 0, after a successful
`lcache_htable_insert(K, V, ttl)` at tick `now`, a call `lcache_htable_fetch(K)`
with no call in between, at a tick `t` above the stamp `(now + ttl) mod 2^32` the
insert stored, that stamp not being 0, returns -1, writes no result and leaves no
entry with key K in the bucket chain of K.  This covers every `now`, `ttl`, `t`
with `now + ttl < t < 2^32`. -/
theorem C9_expired_entry_not_found (core_hash : List Nat → Nat → Nat) (st : lcache_state)
    (K V : List Nat) (ttl now t : Nat) (pkg_ok : Bool)
    (httl : 0 < ttl) (hstamp : (now + ttl) % UINT_MOD ≠ 0)
    (hpast : (now + ttl) % UINT_MOD < t) :
    (lcache_htable_fetch core_hash pkg_ok t K
        (lcache_htable_insert core_hash true now K V ttl st).st).ret = (-1, none)
      ∧ key_count (mk_str K)
          ((lcache_htable_fetch core_hash pkg_ok t K
            (lcache_htable_insert core_hash true now K V ttl st).st).st.cache_htable
              (core_hash (mk_str K) st.cache_htable_size)) = 0 := by
  have hm : ∀ v e, attr_match { attr := mk_str K, value := v, expires := e } (mk_str K) = true :=
    fun v e => (attr_match_iff _ K).mpr rfl
  have hne : ttl ≠ 0 := by omega
  simp [lcache_htable_fetch, lcache_htable_insert, fetch_loop, hm, key_count, hne, hstamp,
    hpast]

/-- Witness of claim C9 (amended): ttl 5 at tick 10, fetch at tick 16. -/
theorem C9_expired_entry_not_found_witness :
    (lcache_htable_fetch hash_zero true 16 [97]
        (lcache_htable_insert hash_zero true 10 [97] [49] 5 table_b_a).st).ret = (-1, none)
      ∧ key_count (mk_str [97])
          ((lcache_htable_fetch hash_zero true 16 [97]
            (lcache_htable_insert hash_zero true 10 [97] [49] 5 table_b_a).st).st.cache_htable
              (hash_zero (mk_str [97]) table_b_a.cache_htable_size)) = 0 :=
  C9_expired_entry_not_found hash_zero table_b_a [97] [49] 5 10 16 true
    (by decide) (by decide) (by decide)

/-- Counterexample to claim C3 as stated: with "alice" and "bob" in different
buckets and the starting tick 5 ticks before the end of the `unsigned int` range,
the stamp of "bob" wraps to 0 (no expiry) and fetch("bob") after the advance
returns "456" instead of -1. -/
theorem C3_scenario_fails_at_wrapping_tick :
    hash_len alice 8 ≠ hash_len bob 8
      ∧ hash_len alice 8 < 8 ∧ hash_len bob 8 < 8
      ∧ (scenario hash_len true 4294967291).2.1 = (1, some [52, 53, 54, 0]) := by
  decide

theorem attr_match_alice (v : List Nat) (e : Nat) :
    attr_match { attr := alice, value := v, expires := e } alice = true :=
  (attr_match_iff _ alice).mpr rfl

theorem attr_match_bob (v : List Nat) (e : Nat) :
    attr_match { attr := bob, value := v, expires := e } bob = true :=
  (attr_match_iff _ bob).mpr rfl

theorem attr_match_alice_bob (v : List Nat) (e : Nat) :
    attr_match { attr := alice, value := v, expires := e } bob = false := by
  have h := attr_match_iff { attr := alice, value := v, expires := e } bob
  have hb : mk_str bob = bob := by decide
  rw [hb] at h
  have hne : alice ≠ bob := by decide
  cases hm : attr_match { attr := alice, value := v, expires := e } bob with
  | false => rfl
  | true => exact absurd (h.mp hm) hne

theorem attr_match_bob_alice (v : List Nat) (e : Nat) :
    attr_match { attr := bob, value := v, expires := e } alice = false := by
  have h := attr_match_iff { attr := bob, value := v, expires := e } alice
  have hb : mk_str alice = alice := by decide
  rw [hb] at h
  have hne : bob ≠ alice := by decide
  cases hm : attr_match { attr := bob, value := v, expires := e } alice with
  | false => rfl
  | true => exact absurd (h.mp hm) hne

/-- Claim C3, amended: for every hash function and every starting tick `T` of
the `unsigned int` range other than 4294967290 and 4294967291 (the two ticks at
which the stamp of "bob" or the advanced tick wraps to 0), with successful
allocations, the first fetch("alice") returns "123" and fetch("bob") after the
advance by 6 ticks returns -1; when the hash function puts "alice" and "bob" in
different buckets, the last fetch("alice") returns "123". -/
theorem C3_scenario_without_wrap (core_hash : List Nat → Nat → Nat) (T : Nat)
    (hT : T < UINT_MOD) (h1 : T ≠ 4294967290) (h2 : T ≠ 4294967291) :
    (scenario core_hash true T).1 = (1, some [49, 50, 51, 0])
      ∧ (scenario core_hash true T).2.1 = (-1, none)
      ∧ (core_hash alice 8 ≠ core_hash bob 8 →
          (scenario core_hash true T).2.2 = (1, some [49, 50, 51, 0])) := by
  have ha : mk_str alice = alice := by decide
  have hb : mk_str bob = bob := by decide
  have hv1 : mk_str v123 = v123 := by decide
  have hv2 : mk_str v456 = v456 := by decide
  have hv : v123 ++ [0] = [49, 50, 51, 0] := by decide
  have he0 : ¬ (T + 5) % UINT_MOD = 0 := by
    unfold UINT_MOD at hT ⊢
    omega
  have hlt : (T + 5) % UINT_MOD < (T + 6) % UINT_MOD := by
    unfold UINT_MOD at hT ⊢
    omega
  by_cases hcol : core_hash alice 8 = core_hash bob 8
  · simp [scenario, lcache_htable_fetch, lcache_htable_insert, fetch_loop,
      lcache_htable_remove_safe, remove_safe_loop, fresh_table, set_entries, ha, hb, hv1, hv2,
      he0, hlt, hcol, attr_match_alice, attr_match_bob, attr_match_alice_bob,
      attr_match_bob_alice, hv]
  · have hcol2 : ¬ core_hash bob 8 = core_hash alice 8 := fun h => hcol h.symm
    simp [scenario, lcache_htable_fetch, lcache_htable_insert, fetch_loop,
      lcache_htable_remove_safe, remove_safe_loop, fresh_table, set_entries, ha, hb, hv1, hv2,
      he0, hlt, hcol, hcol2, attr_match_alice, attr_match_bob, attr_match_alice_bob,
      attr_match_bob_alice, hv]

/-- Witness of claim C3 (amended): starting tick 100, "alice" in bucket 5 and
"bob" in bucket 3. -/
theorem C3_scenario_without_wrap_witness :
    (scenario hash_len true 100).1 = (1, some [49, 50, 51, 0])
      ∧ (scenario hash_len true 100).2.1 = (-1, none)
      ∧ (hash_len alice 8 ≠ hash_len bob 8 →
          (scenario hash_len true 100).2.2 = (1, some [49, 50, 51, 0])) :=
  C3_scenario_without_wrap hash_len 100 (by decide) (by decide) (by decide)

/-! ## Allocation failure, initialisation and locks -/

/-- Claim C11: when the entry allocation (`shm_malloc`) fails,
`lcache_htable_insert` returns -1, performs no lock operation at all, and leaves
the table as it was: same size and same chain in every bucket, the bucket of the
key included. -/
theorem C11_insert_alloc_failure_changes_nothing (core_hash : List Nat → Nat → Nat)
    (ticks : Nat) (attr value : List Nat) (expires : Nat) (st : lcache_state) :
    (lcache_htable_insert core_hash false ticks attr value expires st).ret = -1
      ∧ (lcache_htable_insert core_hash false ticks attr value expires st).trace = []
      ∧ (lcache_htable_insert core_hash false ticks attr value expires st).st.cache_htable_size
          = st.cache_htable_size
      ∧ ∀ j, (lcache_htable_insert core_hash false ticks attr value expires st).st.cache_htable j
          = st.cache_htable j := by
  simp [lcache_htable_insert]

theorem lock_init_loop_fails (lock_init_ok : Nat → Bool) (i : Nat)
    (hfail : lock_init_ok i = false) :
    ∀ (n s : Nat), s ≤ i → i < s + n → (∀ j, s ≤ j → j < i → lock_init_ok j = true) →
      lock_init_loop lock_init_ok n s
        = (some i, (List.range' s (i + 1 - s)).map lock_event.lock_init) := by
  intro n
  induction n with
  | zero => intro s h1 h2; omega
  | succ n ih =>
    intro s h1 h2 hok
    by_cases hs : s = i
    · subst hs
      have h : s + 1 - s = 1 := by omega
      simp [lock_init_loop, hfail, h]
    · have hlt : s < i := by omega
      have hs_ok : lock_init_ok s = true := hok s (Nat.le_refl s) hlt
      have hrec := ih (s + 1) (by omega) (by omega)
        (fun j hj1 hj2 => hok j (by omega) hj2)
      have h : i + 1 - s = (i + 1 - (s + 1)) + 1 := by omega
      rw [h, List.range'_succ]
      simp [lock_init_loop, hs_ok, hrec]

theorem lock_init_loop_succeeds (lock_init_ok : Nat → Bool) :
    ∀ (n s : Nat), (∀ j, s ≤ j → j < s + n → lock_init_ok j = true) →
      lock_init_loop lock_init_ok n s = (none, (List.range' s n).map lock_event.lock_init) := by
  intro n
  induction n with
  | zero => intro s _; simp [lock_init_loop]
  | succ n ih =>
    intro s hok
    have hs_ok : lock_init_ok s = true := hok s (Nat.le_refl s) (by omega)
    have hrec := ih (s + 1) (fun j hj1 hj2 => hok j (by omega) (by omega))
    rw [List.range'_succ]
    simp [lock_init_loop, hs_ok, hrec]

/-- Claim C12: when the table allocation of `lcache_htable_init(size)` succeeds
and `lock_init` fails first at bucket `i < size`, the call initialises the locks
of buckets 0..i (the last one failing), then destroys the locks of buckets
0..i-1, each once and in that order, and no other lock, frees the bucket array,
leaves the table handle `NULL` and returns -1; when every `lock_init` succeeds it
returns 0, frees nothing, and the handle is a table of `size` buckets whose
chains are all empty. -/
theorem C12_init_rolls_back_on_lock_failure (lock_init_ok : Nat → Bool) (size : Nat) :
    (∀ i, i < size → lock_init_ok i = false → (∀ j, j < i → lock_init_ok j = true) →
        lcache_htable_init true lock_init_ok size
          = { ret := -1
              handle := none
              trace := (List.range (i + 1)).map lock_event.lock_init
                ++ (List.range i).map lock_event.lock_destroy
              table_freed := true })
      ∧ ((∀ j, j < size → lock_init_ok j = true) →
          ∃ st, lcache_htable_init true lock_init_ok size
              = { ret := 0
                  handle := some st
                  trace := (List.range size).map lock_event.lock_init
                  table_freed := false }
            ∧ st.cache_htable_size = size ∧ ∀ j, st.cache_htable j = []) := by
  constructor
  · intro i hi hfail hfirst
    have h := lock_init_loop_fails lock_init_ok i hfail size 0 (Nat.zero_le i) (by omega)
      (fun j _ hj => hfirst j hj)
    simp only [Nat.sub_zero] at h
    simp [lcache_htable_init, h, List.range_eq_range']
  · intro hall
    have h := lock_init_loop_succeeds lock_init_ok size 0 (fun j _ hj => hall j (by omega))
    exact ⟨{ cache_htable_size := size, cache_htable := fun _ => [] },
      by simp [lcache_htable_init, h, List.range_eq_range'], rfl, fun _ => rfl⟩

/-- Witness of claim C12: four buckets with `lock_init` failing at bucket 2, and
three buckets with every `lock_init` succeeding. -/
theorem C12_init_rolls_back_on_lock_failure_witness :
    lcache_htable_init true (fun j => decide (j ≠ 2)) 4
        = { ret := -1
            handle := none
            trace := (List.range (2 + 1)).map lock_event.lock_init
              ++ (List.range 2).map lock_event.lock_destroy
            table_freed := true }
      ∧ ∃ st, lcache_htable_init true (fun _ => true) 3
            = { ret := 0
                handle := some st
                trace := (List.range 3).map lock_event.lock_init
                table_freed := false }
          ∧ st.cache_htable_size = 3 ∧ ∀ j, st.cache_htable j = [] :=
  ⟨(C12_init_rolls_back_on_lock_failure (fun j => decide (j ≠ 2)) 4).1 2
      (by decide) (by decide) (by decide),
    (C12_init_rolls_back_on_lock_failure (fun _ => true) 3).2 (fun _ _ => rfl)⟩

theorem fetch_loop_trace_eq (attr : List Nat) (ticks : Nat) (pkg_ok : Bool) (hash_code : Nat) :
    ∀ c : List lcache_entry,
      fetch_loop_trace attr ticks pkg_ok hash_code c = [lock_event.lock_release hash_code] := by
  intro c
  induction c with
  | nil => rfl
  | cons it next ih =>
    unfold fetch_loop_trace
    split
    · split
      · rfl
      · split <;> rfl
    · exact ih

/-- Claim C13: a call of `lcache_htable_insert` whose allocation succeeded, a
call of `lcache_htable_remove` and a call of `lcache_htable_fetch` (on any table,
at any tick, whatever the outcome of the copy allocation, so on each of its
return paths) perform exactly two lock operations: `lock_get` on the lock of the
bucket the key hashes to, then `lock_release` on that same lock.  So one lock is
acquired once and released once, and none is acquired while it is held. -/
theorem C13_one_lock_acquired_and_released (core_hash : List Nat → Nat → Nat)
    (st : lcache_state) (K V : List Nat) (ttl ticks : Nat) (pkg_ok : Bool) :
    (lcache_htable_insert core_hash true ticks K V ttl st).trace
        = [lock_event.lock_get (core_hash (mk_str K) st.cache_htable_size),
           lock_event.lock_release (core_hash (mk_str K) st.cache_htable_size)]
      ∧ (lcache_htable_remove core_hash K st).trace
        = [lock_event.lock_get (core_hash (mk_str K) st.cache_htable_size),
           lock_event.lock_release (core_hash (mk_str K) st.cache_htable_size)]
      ∧ (lcache_htable_fetch core_hash pkg_ok ticks K st).trace
        = [lock_event.lock_get (core_hash (mk_str K) st.cache_htable_size),
           lock_event.lock_release (core_hash (mk_str K) st.cache_htable_size)] := by
  refine ⟨by simp [lcache_htable_insert], by simp [lcache_htable_remove], ?_⟩
  simp [lcache_htable_fetch, fetch_loop_trace_eq]

/-! ## Destruction -/

theorem destroy_loop_trace (st : lcache_state) :
    ∀ (n s : Nat), (destroy_loop st n s).1 = (List.range' s n).map lock_event.lock_destroy := by
  intro n
  induction n with
  | zero => intro s; rfl
  | succ n ih =>
    intro s
    rw [List.range'_succ]
    simp [destroy_loop, ih]

theorem destroy_loop_freed (st : lcache_state) :
    ∀ (n s : Nat), (destroy_loop st n s).2 = (List.range' s n).flatMap st.cache_htable := by
  intro n
  induction n with
  | zero => intro s; rfl
  | succ n ih =>
    intro s
    rw [List.range'_succ]
    simp [destroy_loop, ih]

/-- Claim C14: on a `NULL` handle `lcache_htable_destroy` does nothing (no lock
operation, nothing freed, handle still `NULL`); on a table it calls
`lock_destroy` once on the lock of every bucket 0..size-1, frees the entries of
every chain (the chains of the buckets in order, so every entry of every bucket
is among them), frees the bucket array and leaves the handle `NULL`; a second
call then does nothing, so two calls leave what one call leaves. -/
theorem C14_destroy_releases_all_and_is_idempotent (st : lcache_state) :
    lcache_htable_destroy none
        = { handle := none, trace := [], freed := [], table_freed := false }
      ∧ (lcache_htable_destroy (some st)).handle = none
      ∧ (lcache_htable_destroy (some st)).trace
          = (List.range st.cache_htable_size).map lock_event.lock_destroy
      ∧ (lcache_htable_destroy (some st)).freed
          = (List.range st.cache_htable_size).flatMap st.cache_htable
      ∧ (∀ i, i < st.cache_htable_size → ∀ e ∈ st.cache_htable i,
          e ∈ (lcache_htable_destroy (some st)).freed)
      ∧ (lcache_htable_destroy (some st)).table_freed = true
      ∧ lcache_htable_destroy (lcache_htable_destroy (some st)).handle
          = { handle := none, trace := [], freed := [], table_freed := false }
      ∧ (lcache_htable_destroy (lcache_htable_destroy (some st)).handle).handle
          = (lcache_htable_destroy (some st)).handle := by
  have hfreed : (lcache_htable_destroy (some st)).freed
      = (List.range st.cache_htable_size).flatMap st.cache_htable := by
    simp [lcache_htable_destroy, destroy_loop_freed, List.range_eq_range']
  refine ⟨rfl, rfl, ?_, hfreed, ?_, rfl, rfl, rfl⟩
  · simp [lcache_htable_destroy, destroy_loop_trace, List.range_eq_range']
  · intro i hi e he
    rw [hfreed, List.mem_flatMap]
    exact ⟨i, List.mem_range.mpr hi, he⟩

/-- Witness of claim C14: destroying `table_b_a` leaves a `NULL` handle, and the
entry "a", second in the chain of bucket 0, is among the entries freed. -/
theorem C14_destroy_releases_all_and_is_idempotent_witness :
    (lcache_htable_destroy (some table_b_a)).handle = none
      ∧ { attr := [97], value := [49], expires := 0 }
          ∈ (lcache_htable_destroy (some table_b_a)).freed :=
  ⟨(C14_destroy_releases_all_and_is_idempotent table_b_a).2.1,
    (C14_destroy_releases_all_and_is_idempotent table_b_a).2.2.2.2.1 0 (by decide) _
      (by decide)⟩

/-! ## Expiry stamps -/

/-- Counterexample to claim C15 as stated: an insert at the last tick of the
`unsigned int` range with ttl 2 stores the stamp 1, not the sum 4294967297, and
a fetch at the insertion tick itself already returns -1; and inside the lifetime
of an entry (inserted at tick 10 with ttl 5, fetched at tick 12) a fetch whose
copy allocation fails returns -1 too. -/
theorem C15_stamp_wraps_and_copy_may_fail :
    (lcache_htable_insert hash_zero true 4294967295 [97] [49] 2
        (fresh_table 8)).st.cache_htable 0
        = [{ attr := [97], value := [49], expires := 1 }]
      ∧ (lcache_htable_fetch hash_zero true 4294967295 [97]
          (lcache_htable_insert hash_zero true 4294967295 [97] [49] 2
            (fresh_table 8)).st).ret = (-1, none)
      ∧ (lcache_htable_fetch hash_zero false 12 [97]
          (lcache_htable_insert hash_zero true 10 [97] [49] 5
            (fresh_table 8)).st).ret = (-1, none) := by
  decide

/-- Claim C15, amended: for ttl > 0 and an insertion tick `now` with
`now + ttl < 2^32`, a successful `lcache_htable_insert(K, V, ttl)` puts at the
head of the bucket chain of K an entry whose stamp is the sum `now + ttl`; a
following `lcache_htable_fetch(K)` whose copy allocation succeeds returns 1 with
the bytes of V and the terminator at every tick `t ≤ now + ttl`, the tick equal
to the stamp included, and a fetch at a tick `t > now + ttl` returns -1. -/
theorem C15_stamp_is_sum_without_wrap (core_hash : List Nat → Nat → Nat) (st : lcache_state)
    (K V : List Nat) (now ttl t : Nat) (pkg_ok : Bool)
    (httl : 0 < ttl) (hsum : now + ttl < UINT_MOD) :
    ((lcache_htable_insert core_hash true now K V ttl st).st.cache_htable
        (core_hash (mk_str K) st.cache_htable_size)).head?
        = some { attr := mk_str K, value := mk_str V, expires := now + ttl }
      ∧ (t ≤ now + ttl →
          (lcache_htable_fetch core_hash true t K
            (lcache_htable_insert core_hash true now K V ttl st).st).ret
            = (1, some (mk_str V ++ [0])))
      ∧ (now + ttl < t →
          (lcache_htable_fetch core_hash pkg_ok t K
            (lcache_htable_insert core_hash true now K V ttl st).st).ret = (-1, none)) := by
  have hm : ∀ v e, attr_match { attr := mk_str K, value := v, expires := e } (mk_str K) = true :=
    fun v e => (attr_match_iff _ K).mpr rfl
  have hne : ttl ≠ 0 := by omega
  have hmod : (now + ttl) % UINT_MOD = now + ttl := Nat.mod_eq_of_lt hsum
  have hpos : now + ttl ≠ 0 := by omega
  refine ⟨?_, ?_, ?_⟩
  · simp [lcache_htable_insert, hne, hmod]
  · intro ht
    have hnot : ¬ now + ttl < t := by omega
    simp [lcache_htable_fetch, lcache_htable_insert, fetch_loop, hm, hne, hmod, hnot]
  · intro ht
    simp [lcache_htable_fetch, lcache_htable_insert, fetch_loop, hm, hne, hmod, ht, hpos]

/-- Witness of claim C15 (amended): ttl 5 at tick 10; the fetch at tick 15
returns "1", the fetch at tick 16 returns -1. -/
theorem C15_stamp_is_sum_without_wrap_witness :
    ((lcache_htable_insert hash_zero true 10 [97] [49] 5 table_b_a).st.cache_htable 0).head?
        = some { attr := [97], value := [49], expires := 15 }
      ∧ (lcache_htable_fetch hash_zero true 15 [97]
          (lcache_htable_insert hash_zero true 10 [97] [49] 5 table_b_a).st).ret
          = (1, some [49, 0])
      ∧ (lcache_htable_fetch hash_zero true 16 [97]
          (lcache_htable_insert hash_zero true 10 [97] [49] 5 table_b_a).st).ret
          = (-1, none) :=
  ⟨(C15_stamp_is_sum_without_wrap hash_zero table_b_a [97] [49] 10 5 15 true
      (by decide) (by decide)).1,
    (C15_stamp_is_sum_without_wrap hash_zero table_b_a [97] [49] 10 5 15 true
      (by decide) (by decide)).2.1 (by decide),
    (C15_stamp_is_sum_without_wrap hash_zero table_b_a [97] [49] 10 5 16 true
      (by decide) (by decide)).2.2 (by decide)⟩

/-! ## Update as remove-then-insert -/

theorem set_entries_overwrite (st : lcache_state) (i : Nat) (c d : List lcache_entry) :
    set_entries (set_entries st i c) i d = set_entries st i d := by
  unfold set_entries
  congr 1
  funext j
  by_cases h : j = i <;> simp [h]

theorem set_entries_self (st : lcache_state) (i : Nat) :
    set_entries st i (st.cache_htable i) = st := by
  cases st with
  | mk size tbl =>
    unfold set_entries
    congr 1
    funext j
    by_cases h : j = i <;> simp [h]

theorem remove_safe_loop_twice (p : List Nat) (c : List lcache_entry) (hc : chain_nodup c) :
    remove_safe_loop (mk_str p) false (remove_safe_loop (mk_str p) false c)
      = remove_safe_loop (mk_str p) false c :=
  remove_safe_loop_absent p false _ (remove_safe_loop_no_key p false c hc)

/-- Counterexample to claim C16 as stated: in `table_b_a` (chain "b", "a") an
insert("a", ...) whose allocation fails returns -1 and leaves the chain as it
is, while remove("a") followed by the same failing insert returns -1 and leaves
the chain "b" alone. -/
theorem C16_failed_insert_differs_from_remove_insert :
    (lcache_htable_insert hash_zero false 0 [97] [51] 0 table_b_a).ret = -1
      ∧ (lcache_htable_insert hash_zero false 0 [97] [51] 0 table_b_a).st.cache_htable 0
        = [{ attr := [98], value := [50], expires := 0 },
           { attr := [97], value := [49], expires := 0 }]
      ∧ (lcache_htable_insert hash_zero false 0 [97] [51] 0
          (lcache_htable_remove hash_zero [97] table_b_a).st).ret = -1
      ∧ (lcache_htable_insert hash_zero false 0 [97] [51] 0
          (lcache_htable_remove hash_zero [97] table_b_a).st).st.cache_htable 0
        = [{ attr := [98], value := [50], expires := 0 }] := by
  decide

/-- Claim C16, amended: for every table state reachable from a freshly
initialised table and every key K, an `lcache_htable_insert(K, V, ttl)` whose
allocation succeeds yields the same table state and the same return value (1) as
`lcache_htable_remove(K)` followed by that insert at the same tick; and the
entries behind the new head are entries of the former chain, in their former
order, none rewritten. -/
theorem C16_insert_is_remove_then_insert (core_hash : List Nat → Nat → Nat)
    (st : lcache_state) (h : Reachable core_hash st) (K V : List Nat) (ttl ticks : Nat) :
    (lcache_htable_insert core_hash true ticks K V ttl
        (lcache_htable_remove core_hash K st).st).st
        = (lcache_htable_insert core_hash true ticks K V ttl st).st
      ∧ (lcache_htable_insert core_hash true ticks K V ttl
          (lcache_htable_remove core_hash K st).st).ret
        = (lcache_htable_insert core_hash true ticks K V ttl st).ret
      ∧ (lcache_htable_insert core_hash true ticks K V ttl st).ret = 1
      ∧ ((lcache_htable_insert core_hash true ticks K V ttl st).st.cache_htable
          (core_hash (mk_str K) st.cache_htable_size)).tail.Sublist
            (st.cache_htable (core_hash (mk_str K) st.cache_htable_size)) := by
  have hnd := reachable_nodup core_hash st h (core_hash (mk_str K) st.cache_htable_size)
  refine ⟨?_, by simp [lcache_htable_insert], by simp [lcache_htable_insert], ?_⟩
  · simp only [lcache_htable_insert, lcache_htable_remove, lcache_htable_remove_safe,
      Bool.true_eq_false, if_false, set_entries_size, set_entries_same, set_entries_overwrite]
    rw [remove_safe_loop_twice K _ hnd]
  · simp only [lcache_htable_insert, lcache_htable_remove_safe, Bool.true_eq_false, if_false,
      set_entries_same, List.tail_cons]
    exact remove_safe_loop_sublist _ _ _

/-- Witness of claim C16 (amended): replacing key "a", which sits behind "b". -/
theorem C16_insert_is_remove_then_insert_witness :
    (lcache_htable_insert hash_zero true 3 [97] [51] 4
        (lcache_htable_remove hash_zero [97] table_b_a).st).st
        = (lcache_htable_insert hash_zero true 3 [97] [51] 4 table_b_a).st
      ∧ (lcache_htable_insert hash_zero true 3 [97] [51] 4
          (lcache_htable_remove hash_zero [97] table_b_a).st).ret
        = (lcache_htable_insert hash_zero true 3 [97] [51] 4 table_b_a).ret
      ∧ (lcache_htable_insert hash_zero true 3 [97] [51] 4 table_b_a).ret = 1
      ∧ ((lcache_htable_insert hash_zero true 3 [97] [51] 4 table_b_a).st.cache_htable
          (hash_zero (mk_str [97]) table_b_a.cache_htable_size)).tail.Sublist
            (table_b_a.cache_htable (hash_zero (mk_str [97]) table_b_a.cache_htable_size)) :=
  C16_insert_is_remove_then_insert hash_zero table_b_a ⟨8, _, rfl⟩ [97] [51] 4 3

/-! ## Key matching and frame properties -/

/-- Claim C17, the code at a failing input: the scan test of the three
operations holds exactly when the stored key and the requested key are the same
byte string, and in `table_ab_abc` (chain "ab", "abc") the stored key "abc" is
not matched by the requested key "ab"; yet remove("ab") empties the bucket, so
the entry "abc", found by fetch("abc") before, is removed with it, where the
claim says a stored key that is a proper extension of the requested key is never
removed. -/
theorem C17_remove_of_shorter_key_drops_longer_key :
    (∀ (it : lcache_entry) (p : List Nat), attr_match it (mk_str p) = true ↔ it.attr = mk_str p)
      ∧ Reachable hash_zero table_ab_abc
      ∧ table_ab_abc.cache_htable 0
          = [{ attr := [97, 98], value := [50], expires := 0 },
             { attr := [97, 98, 99], value := [49], expires := 0 }]
      ∧ attr_match { attr := [97, 98, 99], value := [49], expires := 0 } (mk_str [97, 98]) = false
      ∧ (lcache_htable_fetch hash_zero true 0 [97, 98, 99] table_ab_abc).ret = (1, some [49, 0])
      ∧ (lcache_htable_remove hash_zero [97, 98] table_ab_abc).st.cache_htable 0 = []
      ∧ (lcache_htable_fetch hash_zero true 0 [97, 98, 99]
          (lcache_htable_remove hash_zero [97, 98] table_ab_abc).st).ret = (-1, none) :=
  ⟨attr_match_iff, ⟨8, _, rfl⟩, by decide, by decide, by decide, by decide, by decide⟩

theorem first_with_key_none (p : List Nat) (c : List lcache_entry)
    (h : first_with_key (mk_str p) c = none) : ∀ e ∈ c, e.attr ≠ mk_str p := by
  intro e he
  have := List.find?_eq_none.mp h e he
  simpa using this

theorem fetch_loop_live (p : List Nat) (ticks : Nat) (pkg_ok : Bool) (e : lcache_entry)
    (hlive : ¬ (e.expires ≠ 0 ∧ e.expires < ticks)) :
    ∀ (b : Bool) (c : List lcache_entry), first_with_key (mk_str p) c = some e →
      fetch_loop (mk_str p) ticks pkg_ok b c
        = ((if pkg_ok = false then (-1, none) else (1, some (e.value ++ [0]))), c) := by
  intro b c
  induction c generalizing b with
  | nil => intro h; simp [first_with_key] at h
  | cons it next ih =>
    intro h
    by_cases hk : it.attr = mk_str p
    · have hit : attr_match it (mk_str p) = true := (attr_match_iff it p).mpr hk
      have he : it = e := by simpa [first_with_key, hk] using h
      subst he
      simp only [fetch_loop, hit, if_true, hlive, if_false]
      split <;> rfl
    · have hit : ¬ attr_match it (mk_str p) = true := by
        rw [attr_match_iff]
        exact hk
      have hnext : first_with_key (mk_str p) next = some e := by
        simpa [first_with_key, hk] using h
      simp [fetch_loop, hit, ih true hnext]

/-- Claim C18: when the first entry with key K in the bucket chain of K, if
there is one, is not expired at the tick of the call, `lcache_htable_fetch(K)`
leaves the whole table as it was; it returns -1 without writing the result when
no entry has key K, 1 with a buffer holding the bytes of the stored value and a
terminator when the entry is there and the copy allocation succeeds, and -1
without writing the result when the copy allocation fails. -/
theorem C18_fetch_without_expired_hit_keeps_table (core_hash : List Nat → Nat → Nat)
    (st : lcache_state) (K : List Nat) (ticks : Nat) (pkg_ok : Bool)
    (hlive : ∀ e, first_with_key (mk_str K)
        (st.cache_htable (core_hash (mk_str K) st.cache_htable_size)) = some e →
          ¬ (e.expires ≠ 0 ∧ e.expires < ticks)) :
    (lcache_htable_fetch core_hash pkg_ok ticks K st).st = st
      ∧ (first_with_key (mk_str K)
          (st.cache_htable (core_hash (mk_str K) st.cache_htable_size)) = none →
            (lcache_htable_fetch core_hash pkg_ok ticks K st).ret = (-1, none))
      ∧ (∀ e, first_with_key (mk_str K)
          (st.cache_htable (core_hash (mk_str K) st.cache_htable_size)) = some e →
            pkg_ok = true →
              (lcache_htable_fetch core_hash pkg_ok ticks K st).ret = (1, some (e.value ++ [0])))
      ∧ (pkg_ok = false → (lcache_htable_fetch core_hash pkg_ok ticks K st).ret = (-1, none)) := by
  cases hf : first_with_key (mk_str K)
      (st.cache_htable (core_hash (mk_str K) st.cache_htable_size)) with
  | none =>
    have habs := fetch_loop_absent K ticks pkg_ok false _ (first_with_key_none K _ hf)
    simp [lcache_htable_fetch, habs, set_entries_self]
  | some e =>
    have hl := fetch_loop_live K ticks pkg_ok e (hlive e hf) false _ hf
    simp only [lcache_htable_fetch, hl, set_entries_self, true_and]
    refine ⟨fun h => by simp at h, ?_, ?_⟩
    · intro e2 he2 hp
      have : e = e2 := by simpa using he2
      subst this
      simp [hp]
    · intro hp
      simp [hp]

/-- Witness of claim C18: in `table_b_a` the entry "a" has no expiry and sits
behind "b"; fetch("a") at tick 7 leaves the table as it was and returns "1". -/
theorem C18_fetch_without_expired_hit_keeps_table_witness :
    (lcache_htable_fetch hash_zero true 7 [97] table_b_a).st = table_b_a
      ∧ (lcache_htable_fetch hash_zero true 7 [97] table_b_a).ret = (1, some [49, 0]) :=
  ⟨(C18_fetch_without_expired_hit_keeps_table hash_zero table_b_a [97] 7 true (by decide)).1,
    (C18_fetch_without_expired_hit_keeps_table hash_zero table_b_a [97] 7 true
      (by decide)).2.2.1 { attr := [97], value := [49], expires := 0 } (by decide) rfl⟩

/-- Claim C19: for every table, key K and bucket index `j` other than the index
the hash function gives K, `lcache_htable_insert(K, ...)` (whatever the outcome
of its allocation), `lcache_htable_remove(K)` and `lcache_htable_fetch(K)` leave
the chain of bucket `j` as it was; and what each call returns and leaves in the
bucket of K is the same on any other table of the same size with the same chain
in that bucket, so only that bucket is read. -/
theorem C19_other_buckets_untouched (core_hash : List Nat → Nat → Nat) (st : lcache_state)
    (K V : List Nat) (ttl ticks : Nat) (shm_ok pkg_ok : Bool) (j : Nat)
    (hj : j ≠ core_hash (mk_str K) st.cache_htable_size) :
    (lcache_htable_insert core_hash shm_ok ticks K V ttl st).st.cache_htable j
        = st.cache_htable j
      ∧ (lcache_htable_remove core_hash K st).st.cache_htable j = st.cache_htable j
      ∧ (lcache_htable_fetch core_hash pkg_ok ticks K st).st.cache_htable j = st.cache_htable j
      ∧ ∀ st2 : lcache_state, st2.cache_htable_size = st.cache_htable_size →
          st2.cache_htable (core_hash (mk_str K) st.cache_htable_size)
            = st.cache_htable (core_hash (mk_str K) st.cache_htable_size) →
          ((lcache_htable_insert core_hash shm_ok ticks K V ttl st2).ret
              = (lcache_htable_insert core_hash shm_ok ticks K V ttl st).ret
            ∧ (lcache_htable_insert core_hash shm_ok ticks K V ttl st2).st.cache_htable
                (core_hash (mk_str K) st.cache_htable_size)
              = (lcache_htable_insert core_hash shm_ok ticks K V ttl st).st.cache_htable
                (core_hash (mk_str K) st.cache_htable_size))
          ∧ (lcache_htable_remove core_hash K st2).st.cache_htable
                (core_hash (mk_str K) st.cache_htable_size)
              = (lcache_htable_remove core_hash K st).st.cache_htable
                (core_hash (mk_str K) st.cache_htable_size)
          ∧ (lcache_htable_fetch core_hash pkg_ok ticks K st2).ret
              = (lcache_htable_fetch core_hash pkg_ok ticks K st).ret
          ∧ (lcache_htable_fetch core_hash pkg_ok ticks K st2).st.cache_htable
                (core_hash (mk_str K) st.cache_htable_size)
              = (lcache_htable_fetch core_hash pkg_ok ticks K st).st.cache_htable
                (core_hash (mk_str K) st.cache_htable_size) := by
  refine ⟨?_, ?_, ?_, ?_⟩
  · cases shm_ok with
    | false => simp [lcache_htable_insert]
    | true =>
      simp only [lcache_htable_insert, Bool.true_eq_false, if_false]
      exact set_entries_other st _ j _ hj
  · simp only [lcache_htable_remove]
    exact set_entries_other st _ j _ hj
  · simp only [lcache_htable_fetch]
    exact set_entries_other st _ j _ hj
  · intro st2 hsize hchain
    cases shm_ok with
    | false =>
      simp [lcache_htable_insert, lcache_htable_remove, lcache_htable_fetch, hsize, hchain]
    | true =>
      simp [lcache_htable_insert, lcache_htable_remove, lcache_htable_fetch, hsize, hchain]

/-- Witness of claim C19: in `table_b_a` every key hashes to bucket 0; bucket 1
is untouched by the calls on key "b". -/
theorem C19_other_buckets_untouched_witness :
    (lcache_htable_insert hash_zero true 4 [98] [51] 9 table_b_a).st.cache_htable 1
        = table_b_a.cache_htable 1
      ∧ (lcache_htable_remove hash_zero [98] table_b_a).st.cache_htable 1
        = table_b_a.cache_htable 1
      ∧ (lcache_htable_fetch hash_zero true 4 [98] table_b_a).st.cache_htable 1
        = table_b_a.cache_htable 1 :=
  ⟨(C19_other_buckets_untouched hash_zero table_b_a [98] [51] 9 4 true true 1 (by decide)).1,
    (C19_other_buckets_untouched hash_zero table_b_a [98] [51] 9 4 true true 1 (by decide)).2.1,
    (C19_other_buckets_untouched hash_zero table_b_a [98] [51] 9 4 true true 1 (by decide)).2.2.1⟩

end Localcache
